import Mathlib

/-!
The `int_stack` character device (lab5/int_stack.c).

A shallow embedding of the kernel module's data path (`int_stack_read`,
`int_stack_write`, `int_stack_ioctl`, `init_stack_data`) and of its USB
hot-plug path (`create_device`, `remove_device`, `usb_key_probe`,
`usb_key_disconnect`, `init_char_device`).

Conventions of the embedding.

* The global `stack` is passed explicitly: every operation takes the stack
  state and returns the new one together with the C return value.
* `unsigned int` fields are natural numbers.  The only arithmetic the driver
  performs on them is `size--` under `size != 0`, `size++` under
  `size < max_size`, and the rollback `size++` immediately after `size--`;
  none of them can wrap, so no reduction modulo `2^32` appears.
* `stack->data` is the list of the cells of the allocated buffer, live or
  stale; its length is the number of `int`s that were allocated.
* Calls into the kernel whose outcome the driver cannot control
  (`copy_to_user`, `copy_from_user`, `kmalloc`, `krealloc`, `device_create`)
  take their outcome as an extra argument.
* The mutex is not modelled: each operation is one atomic step.
-/

namespace IntStack

/-! ## Constants taken from the kernel headers -/

/-- Error number `ENOMEM` of errno-base.h. -/
def ENOMEM : Int := 12
/-- Error number `EFAULT` of errno-base.h. -/
def EFAULT : Int := 14
/-- Error number `EINVAL` of errno-base.h. -/
def EINVAL : Int := 22
/-- Error number `ENOTTY` of errno-base.h. -/
def ENOTTY : Int := 25
/-- Error number `ERANGE` of errno-base.h. -/
def ERANGE : Int := 34

/-- The value of `sizeof(int)`. -/
def sizeof_int : Nat := 4

/-- Default capacity, `#define DEFAULT_MAX_STACK_SIZE 10`. -/
def DEFAULT_MAX_STACK_SIZE : Nat := 10

/-- The character `S`, `#define INT_STACK_MAGIC 'S'`. -/
def INT_STACK_MAGIC : Nat := 0x53

/-- The header macro `_IOC_TYPE`: bits 8..15 of a request code. -/
def _IOC_TYPE (cmd : Nat) : Nat := (cmd >>> 8) &&& 0xff

/-- The header macro `_IOW(type, nr, size)` with the size already taken:
direction `_IOC_WRITE = 1` in bits 30..31, size in bits 16..29, type in bits
8..15, number in bits 0..7. -/
def _IOW (ty nr size : Nat) : Nat :=
  (1 <<< 30) ||| (size <<< 16) ||| (ty <<< 8) ||| nr

/-- The request code `_IOW(INT_STACK_MAGIC, 1, unsigned int)`. -/
def INT_STACK_SET_SIZE : Nat := _IOW INT_STACK_MAGIC 1 4

/-! ## The stack -/

/-- The record `struct int_stack` without its mutex. -/
structure int_stack where
  data : List Int
  size : Nat
  max_size : Nat
deriving DecidableEq, Repr

/-- What `int_stack_read` hands back: the return value, the integer that
reached the caller's buffer (`none` when `copy_to_user` was not called or did
not complete), and the stack afterwards. -/
structure ReadResult where
  ret : Int
  to_user : Option Int
  stack : int_stack
deriving DecidableEq, Repr

/-- What `int_stack_write` and `int_stack_ioctl` hand back: the return value
and the stack afterwards. -/
structure OpResult where
  ret : Int
  stack : int_stack
deriving DecidableEq, Repr

/-- The function `int_stack_read`.  `copy_ok` says whether `copy_to_user`
returns 0. -/
def int_stack_read (s : int_stack) (count : Nat) (copy_ok : Bool) : ReadResult :=
  if count < sizeof_int then
    { ret := -EINVAL, to_user := none, stack := s }
  else if s.size = 0 then
    { ret := 0, to_user := none, stack := s }
  else
    let s1 : int_stack := { s with size := s.size - 1 }
    let value : Int := s1.data.getD s1.size 0
    if copy_ok then
      { ret := sizeof_int, to_user := some value, stack := s1 }
    else
      { ret := -EFAULT, to_user := none, stack := { s1 with size := s1.size + 1 } }

/-- The function `int_stack_write`.  `from_user` is what `copy_from_user`
would fetch from the caller's buffer: `none` when it faults, `some v` when it
returns 0 having read the integer `v`. -/
def int_stack_write (s : int_stack) (count : Nat) (from_user : Option Int) : OpResult :=
  if count < sizeof_int then
    { ret := -EINVAL, stack := s }
  else
    match from_user with
    | none => { ret := -EFAULT, stack := s }
    | some value =>
      if s.size ≥ s.max_size then
        { ret := -ERANGE, stack := s }
      else
        { ret := sizeof_int,
          stack := { s with data := s.data.set s.size value, size := s.size + 1 } }

/-- The kernel's `krealloc(p, sizeof(int) * n, GFP_KERNEL)` on a buffer of
`int`s.  `none` as outcome is the NULL return, which leaves the old buffer as
it was; `some fill` is success: the first `min old.length n` cells are kept
and the cells that are new hold whatever `fill` says. -/
def krealloc (old : List Int) (n : Nat) (outcome : Option (Nat → Int)) : Option (List Int) :=
  match outcome with
  | none => none
  | some fill => some (old.take n ++ (List.range (n - old.length)).map fill)

/-- The function `int_stack_ioctl`.  `arg` is what `copy_from_user` fetches
through the pointer argument (`none` when it faults) and `alloc` is the
outcome of `krealloc`. -/
def int_stack_ioctl (s : int_stack) (cmd : Nat) (arg : Option Nat)
    (alloc : Option (Nat → Int)) : OpResult :=
  if _IOC_TYPE cmd ≠ INT_STACK_MAGIC then
    { ret := -ENOTTY, stack := s }
  else if cmd = INT_STACK_SET_SIZE then
    match arg with
    | none => { ret := -EFAULT, stack := s }
    | some new_size =>
      if new_size = 0 then
        { ret := -EINVAL, stack := s }
      else
        let s1 : int_stack := if new_size < s.size then { s with size := new_size } else s
        match krealloc s1.data new_size alloc with
        | none => { ret := -ENOMEM, stack := s1 }
        | some new_data => { ret := 0, stack := { s1 with data := new_data, max_size := new_size } }
  else
    { ret := -ENOTTY, stack := s }

/-- The function `init_stack_data`.  `record_ok` says whether the `kmalloc`
of the record succeeds; `buffer` is the outcome of the `kmalloc` of the data
buffer, `some junk` giving the uninitialised contents of its cells. -/
def init_stack_data (record_ok : Bool) (buffer : Option (Nat → Int)) : Except Int int_stack :=
  if !record_ok then
    .error (-ENOMEM)
  else
    match buffer with
    | none => .error (-ENOMEM)
    | some junk =>
      .ok { data := (List.range DEFAULT_MAX_STACK_SIZE).map junk,
            size := 0,
            max_size := DEFAULT_MAX_STACK_SIZE }

/-! ## Requests against the shared stack -/

/-- One call of a file operation on the device, with the outcomes of the
kernel services it relies on. -/
inductive Request where
  | read (count : Nat) (copy_ok : Bool)
  | write (count : Nat) (from_user : Option Int)
  | ioctl (cmd : Nat) (arg : Option Nat) (alloc : Option (Nat → Int))

/-- What the caller observes of one request: the return value and, for a
read, the integer placed in its buffer. -/
structure Response where
  ret : Int
  to_user : Option Int
deriving DecidableEq, Repr

/-- Dispatch of one request through `int_stack_fops`. -/
def serve (s : int_stack) : Request → Response × int_stack
  | .read count copy_ok =>
    let r := int_stack_read s count copy_ok
    ({ ret := r.ret, to_user := r.to_user }, r.stack)
  | .write count from_user =>
    let r := int_stack_write s count from_user
    ({ ret := r.ret, to_user := none }, r.stack)
  | .ioctl cmd arg alloc =>
    let r := int_stack_ioctl s cmd arg alloc
    ({ ret := r.ret, to_user := none }, r.stack)

/-- A sequence of requests served one after the other. -/
def serve_all (s : int_stack) : List Request → List Response × int_stack
  | [] => ([], s)
  | q :: qs =>
    let a := serve s q
    let b := serve_all a.2 qs
    (a.1 :: b.1, b.2)

/-- The bound the driver keeps between `size` and `max_size`. -/
def size_in_bounds (s : int_stack) : Prop := 0 ≤ s.size ∧ s.size ≤ s.max_size

instance (s : int_stack) : Decidable (size_in_bounds s) := by
  unfold size_in_bounds; infer_instance

/-! ## The hot-plug path -/

/-- The two globals of the hot-plug path: `int_stack_device.device_created`
and `usb_key_device` (`none` is NULL, `some u` the address of a `usb_device`). -/
structure module_state where
  device_created : Bool
  usb_key_device : Option Nat
deriving DecidableEq, Repr

/-- A call into the driver core that creates or destroys the node
`/dev/int_stack`; `device_create` carries whether it succeeded. -/
inductive KCall where
  | device_create (ok : Bool)
  | device_destroy
deriving DecidableEq, Repr

/-- Result of a hot-plug function: return value, globals afterwards, and the
node calls it made, oldest first. -/
structure DevResult where
  ret : Int
  state : module_state
  calls : List KCall
deriving DecidableEq, Repr

/-- The function `create_device`.  `create_err` is the outcome of
`device_create`: `none` for a valid pointer, `some e` for an error pointer
with `PTR_ERR` equal to `e`. -/
def create_device (m : module_state) (create_err : Option Int) : DevResult :=
  if m.device_created then
    { ret := 0, state := m, calls := [] }
  else
    match create_err with
    | some e => { ret := e, state := m, calls := [.device_create false] }
    | none =>
      { ret := 0, state := { m with device_created := true }, calls := [.device_create true] }

/-- The function `remove_device`. -/
def remove_device (m : module_state) : module_state × List KCall :=
  if m.device_created then
    ({ m with device_created := false }, [.device_destroy])
  else
    (m, [])

/-- The function `usb_key_probe`, for an interface of the device at `udev`. -/
def usb_key_probe (m : module_state) (udev : Nat) (create_err : Option Int) : DevResult :=
  let m1 : module_state := { m with usb_key_device := some udev }
  let r := create_device m1 create_err
  { ret := 0, state := r.state, calls := r.calls }

/-- The function `usb_key_disconnect`. -/
def usb_key_disconnect (m : module_state) : module_state × List KCall :=
  let m1 : module_state := { m with usb_key_device := none }
  remove_device m1

/-- The globals as the loader leaves them: zero-initialised statics. -/
def module_loaded : module_state := { device_created := false, usb_key_device := none }

/-- The function `init_char_device`, given the return value of
`alloc_chrdev_region`, the outcome of `class_create` (`some e` for an error
pointer) and the return value of `cdev_add`. -/
def init_char_device (m : module_state) (region_ret : Int) (class_err : Option Int)
    (cdev_ret : Int) : Int × module_state :=
  if region_ret < 0 then (region_ret, m)
  else
    match class_err with
    | some e => (e, m)
    | none =>
      if cdev_ret < 0 then (cdev_ret, m)
      else (0, { m with device_created := false })

/-- The globals after a successful `init_char_device`, before the USB core
has delivered any event. -/
def module_initialised : module_state := (init_char_device module_loaded 0 none 0).2

/-- A hot-plug event delivered by the USB core. -/
inductive Event where
  | attach (udev : Nat) (create_err : Option Int)
  | detach
deriving DecidableEq, Repr

/-- One event handled: the globals afterwards and the node calls made. -/
def handle (m : module_state) : Event → module_state × List KCall
  | .attach udev create_err =>
    let r := usb_key_probe m udev create_err
    (r.state, r.calls)
  | .detach => usb_key_disconnect m

/-- A sequence of events handled in order: final globals and all node calls. -/
def handle_all (m : module_state) : List Event → module_state × List KCall
  | [] => (m, [])
  | e :: es =>
    let a := handle m e
    let b := handle_all a.1 es
    (b.1, a.2 ++ b.2)

/-- The driver core seen from outside: the effect of one node call when the
node exists (`true`) or not.  `none` marks a misuse: `device_create` issued
while the node exists, or `device_destroy` issued while it does not. -/
def node_after (node : Bool) : KCall → Option Bool
  | .device_create ok => if node then none else some ok
  | .device_destroy => if node then some false else none

/-- The node calls of a trace replayed in order from a given node state. -/
def replay (node : Bool) : List KCall → Option Bool
  | [] => some node
  | c :: cs =>
    match node_after node c with
    | none => none
    | some n => replay n cs

/-- Whether every `device_create` demanded by the events succeeds. -/
def creates_succeed (es : List Event) : Bool :=
  es.all fun e =>
    match e with
    | .attach _ create_err => create_err.isNone
    | .detach => true

/-! ## Sessions -/

/-- The function `int_stack_open`: it logs a line and returns 0, reading
neither the globals of the hot-plug path nor the stack. -/
def int_stack_open (_m : module_state) : Int := 0

/-- The function `int_stack_release`: it logs a line and returns 0. -/
def int_stack_release (_m : module_state) : Int := 0

/-! ## Counting the effect of a serial run -/

/-- A request that is a read or a write, the two the client's `pop` and
`push` issue. -/
def is_data_request : Request → Bool
  | .read _ _ => true
  | .write _ _ => true
  | .ioctl _ _ _ => false

/-- A write that was answered with 4: a value was pushed. -/
def pushed (qr : Request × Response) : Bool :=
  match qr.1 with
  | .write _ _ => qr.2.ret == 4
  | _ => false

/-- A read that was answered with 4: a value was popped and delivered. -/
def popped (qr : Request × Response) : Bool :=
  match qr.1 with
  | .read _ _ => qr.2.ret == 4
  | _ => false

/-! ## Basic facts -/

theorem set_size_code : INT_STACK_SET_SIZE = 0x40045301 := by decide

theorem set_size_type : _IOC_TYPE INT_STACK_SET_SIZE = INT_STACK_MAGIC := by decide

/-! ## Single requests -/

/-- C4: a write of at least four bytes whose value was fetched from the
caller, issued when `size` equals `max_size`, returns `-ERANGE` and leaves
the whole stack record (size, capacity and every cell) as it was. -/
theorem write_full_out_of_range (s : int_stack) (count : Nat) (value : Int)
    (hfull : s.size = s.max_size) (hcount : 4 ≤ count) :
    int_stack_write s count (some value) = { ret := -ERANGE, stack := s } := by
  have h1 : ¬ count < sizeof_int := by unfold sizeof_int; omega
  have h2 : s.size ≥ s.max_size := by omega
  simp [int_stack_write, h1, h2]

theorem write_full_out_of_range_witness :
    int_stack_write { data := [7, 8], size := 2, max_size := 2 } 4 (some 9)
      = { ret := -34, stack := { data := [7, 8], size := 2, max_size := 2 } } :=
  write_full_out_of_range { data := [7, 8], size := 2, max_size := 2 } 4 9 rfl (by decide)

/-- C5: a read of at least four bytes on a stack of size 0 returns 0 (not a
negative error number), puts nothing in the caller's buffer whatever
`copy_to_user` would have done, and leaves the stack record as it was, so
size stays 0 and the capacity is unchanged. -/
theorem read_empty_returns_zero (s : int_stack) (count : Nat) (copy_ok : Bool)
    (hempty : s.size = 0) (hcount : 4 ≤ count) :
    int_stack_read s count copy_ok = { ret := 0, to_user := none, stack := s }
      ∧ (int_stack_read s count copy_ok).stack.size = 0
      ∧ (int_stack_read s count copy_ok).stack.max_size = s.max_size := by
  have h1 : ¬ count < sizeof_int := by unfold sizeof_int; omega
  simp [int_stack_read, h1, hempty]

theorem read_empty_returns_zero_witness :
    int_stack_read { data := [5, 6, 7], size := 0, max_size := 3 } 4 true
        = { ret := 0, to_user := none, stack := { data := [5, 6, 7], size := 0, max_size := 3 } }
      ∧ (int_stack_read { data := [5, 6, 7], size := 0, max_size := 3 } 4 true).stack.size = 0
      ∧ (int_stack_read { data := [5, 6, 7], size := 0, max_size := 3 } 4 true).stack.max_size = 3 :=
  read_empty_returns_zero { data := [5, 6, 7], size := 0, max_size := 3 } 4 true rfl (by decide)

/-- C6: the SET_SIZE request with requested capacity 0 returns `-EINVAL` and
leaves the whole stack record (capacity, size and every cell) as it was,
whatever `krealloc` would have done. -/
theorem set_size_zero_invalid (s : int_stack) (alloc : Option (Nat → Int)) :
    int_stack_ioctl s INT_STACK_SET_SIZE (some 0) alloc = { ret := -EINVAL, stack := s } := by
  have h : _IOC_TYPE INT_STACK_SET_SIZE = INT_STACK_MAGIC := set_size_type
  simp [int_stack_ioctl, h]

/-- C8: on a non-empty stack, a read of at least four bytes whose
`copy_to_user` fails returns `-EFAULT`, delivers nothing, and leaves the
stack record identical to what it was; a following read whose delivery
succeeds then returns 4 and hands over the cell at index `size - 1`, the same
element the failed read had popped. -/
theorem read_fault_rolls_back (s : int_stack) (count count2 : Nat)
    (hne : s.size ≠ 0) (hcount : 4 ≤ count) (hcount2 : 4 ≤ count2) :
    int_stack_read s count false = { ret := -EFAULT, to_user := none, stack := s }
      ∧ (int_stack_read (int_stack_read s count false).stack count2 true).ret = 4
      ∧ (int_stack_read (int_stack_read s count false).stack count2 true).to_user
          = some (s.data.getD (s.size - 1) 0)
      ∧ int_stack_read (int_stack_read s count false).stack count2 true
          = int_stack_read s count2 true := by
  have h1 : ¬ count < sizeof_int := by unfold sizeof_int; omega
  have h2 : ¬ count2 < sizeof_int := by unfold sizeof_int; omega
  have h3 : s.size - 1 + 1 = s.size := by omega
  have h4 : int_stack_read s count false = { ret := -EFAULT, to_user := none, stack := s } := by
    simp [int_stack_read, h1, hne, h3]
  rw [h4]
  simp [int_stack_read, h2, hne]
  rfl

theorem read_fault_rolls_back_witness :
    int_stack_read { data := [1, 2, 3], size := 2, max_size := 3 } 4 false
        = { ret := -14, to_user := none, stack := { data := [1, 2, 3], size := 2, max_size := 3 } }
      ∧ (int_stack_read (int_stack_read { data := [1, 2, 3], size := 2, max_size := 3 } 4
            false).stack 8 true).ret = 4
      ∧ (int_stack_read (int_stack_read { data := [1, 2, 3], size := 2, max_size := 3 } 4
            false).stack 8 true).to_user = some 2
      ∧ int_stack_read (int_stack_read { data := [1, 2, 3], size := 2, max_size := 3 } 4
            false).stack 8 true
          = int_stack_read { data := [1, 2, 3], size := 2, max_size := 3 } 8 true :=
  read_fault_rolls_back { data := [1, 2, 3], size := 2, max_size := 3 } 4 8
    (by decide) (by decide) (by decide)

/-! ## Resizing -/

theorem set_size_ok_eq (s : int_stack) (k : Nat) (fill : Nat → Int) (hk : 0 < k) :
    int_stack_ioctl s INT_STACK_SET_SIZE (some k) (some fill)
      = { ret := 0,
          stack := { data := s.data.take k ++ (List.range (k - s.data.length)).map fill,
                     size := min s.size k,
                     max_size := k } } := by
  have h : _IOC_TYPE INT_STACK_SET_SIZE = INT_STACK_MAGIC := set_size_type
  have hk0 : k ≠ 0 := by omega
  by_cases hlt : k < s.size
  · have hmin : min s.size k = k := by omega
    simp [int_stack_ioctl, h, hk0, hlt, krealloc, hmin]
  · have hmin : min s.size k = s.size := by omega
    simp [int_stack_ioctl, h, hk0, hlt, krealloc, hmin]

theorem set_size_fail_eq (s : int_stack) (k : Nat) (hk : 0 < k) :
    int_stack_ioctl s INT_STACK_SET_SIZE (some k) none
      = { ret := -ENOMEM, stack := { s with size := min s.size k } } := by
  have h : _IOC_TYPE INT_STACK_SET_SIZE = INT_STACK_MAGIC := set_size_type
  have hk0 : k ≠ 0 := by omega
  by_cases hlt : k < s.size
  · have hmin : min s.size k = k := by omega
    simp [int_stack_ioctl, h, hk0, hlt, krealloc, hmin]
  · have hmin : min s.size k = s.size := by omega
    simp [int_stack_ioctl, h, hk0, hlt, krealloc, hmin]

/-- When the requested capacity is not below the current size, a failed
reallocation leaves the stack record untouched. -/
theorem set_size_fail_keeps_of_le (s : int_stack) (k : Nat) (hk : 0 < k) (hle : s.size ≤ k) :
    int_stack_ioctl s INT_STACK_SET_SIZE (some k) none = { ret := -ENOMEM, stack := s } := by
  rw [set_size_fail_eq s k hk]
  have hmin : min s.size k = s.size := by omega
  rw [hmin]

/-- C2: with three values stored in a buffer of ten, a SET_SIZE request for
capacity 1 whose `krealloc` fails returns `-ENOMEM` but leaves `size` at 1:
the truncation made before the allocation is not undone, so the size is not
what it was before the call and the values 2 and 3 are no longer reachable. -/
theorem set_size_failure_truncates :
    int_stack_ioctl { data := [1, 2, 3, 0, 0, 0, 0, 0, 0, 0], size := 3, max_size := 10 }
        INT_STACK_SET_SIZE (some 1) none
      = { ret := -ENOMEM,
          stack := { data := [1, 2, 3, 0, 0, 0, 0, 0, 0, 0], size := 1, max_size := 10 } }
    ∧ (int_stack_ioctl { data := [1, 2, 3, 0, 0, 0, 0, 0, 0, 0], size := 3, max_size := 10 }
        INT_STACK_SET_SIZE (some 1) none).stack.size ≠ 3 := by
  decide

/-- C3: for a requested capacity `k > 0` whose reallocation succeeds, on a
stack whose live cells lie inside its buffer, SET_SIZE returns 0, sets the
capacity to `k` and the size to `min size k`, leaves the cells at indices
below `min size k` unchanged, and hands back a buffer of exactly `k` cells;
in particular for `k < size` the size becomes `k` and the cells from index
`k` on are gone. -/
theorem set_size_success (s : int_stack) (k : Nat) (fill : Nat → Int)
    (hk : 0 < k) (hbuf : s.size ≤ s.data.length) :
    (int_stack_ioctl s INT_STACK_SET_SIZE (some k) (some fill)).ret = 0
      ∧ (int_stack_ioctl s INT_STACK_SET_SIZE (some k) (some fill)).stack.max_size = k
      ∧ (int_stack_ioctl s INT_STACK_SET_SIZE (some k) (some fill)).stack.size = min s.size k
      ∧ (∀ i, i < min s.size k →
          (int_stack_ioctl s INT_STACK_SET_SIZE (some k) (some fill)).stack.data[i]? = s.data[i]?)
      ∧ (int_stack_ioctl s INT_STACK_SET_SIZE (some k) (some fill)).stack.data.length = k
      ∧ (k < s.size →
          (int_stack_ioctl s INT_STACK_SET_SIZE (some k) (some fill)).stack.size = k
          ∧ (int_stack_ioctl s INT_STACK_SET_SIZE (some k) (some fill)).stack.data
              = s.data.take k) := by
  rw [set_size_ok_eq s k fill hk]
  refine ⟨rfl, rfl, rfl, ?_, ?_, ?_⟩
  · intro i hi
    have hik : i < k := by omega
    have hil : i < s.data.length := by omega
    have h1 : i < (s.data.take k).length := by
      rw [List.length_take]; omega
    simp only
    rw [List.getElem?_append_left h1, List.getElem?_take_of_lt hik]
  · simp only [List.length_append, List.length_take, List.length_map, List.length_range]
    omega
  · intro hlt
    have hz : k - s.data.length = 0 := by omega
    have hmin : min s.size k = k := by omega
    simp [hz, hmin]

theorem set_size_success_witness :
    (int_stack_ioctl { data := [1, 2, 3, 0], size := 3, max_size := 4 }
        INT_STACK_SET_SIZE (some 2) (some fun _ => 0)).ret = 0
      ∧ (int_stack_ioctl { data := [1, 2, 3, 0], size := 3, max_size := 4 }
        INT_STACK_SET_SIZE (some 2) (some fun _ => 0)).stack.max_size = 2
      ∧ (int_stack_ioctl { data := [1, 2, 3, 0], size := 3, max_size := 4 }
        INT_STACK_SET_SIZE (some 2) (some fun _ => 0)).stack.size = 2
      ∧ (int_stack_ioctl { data := [1, 2, 3, 0], size := 3, max_size := 4 }
        INT_STACK_SET_SIZE (some 2) (some fun _ => 0)).stack.data = [1, 2] :=
  have h := set_size_success { data := [1, 2, 3, 0], size := 3, max_size := 4 } 2
    (fun _ => 0) (by decide) (by decide)
  ⟨h.1, h.2.1, (h.2.2.2.2.2 (by decide)).1, (h.2.2.2.2.2 (by decide)).2⟩

/-! ## The size bound -/

theorem read_keeps_bound (s : int_stack) (count : Nat) (copy_ok : Bool)
    (h : s.size ≤ s.max_size) :
    (int_stack_read s count copy_ok).stack.size ≤ (int_stack_read s count copy_ok).stack.max_size := by
  unfold int_stack_read
  split
  · exact h
  · split
    · exact h
    · cases copy_ok <;> simp <;> omega

theorem write_keeps_bound (s : int_stack) (count : Nat) (from_user : Option Int)
    (h : s.size ≤ s.max_size) :
    (int_stack_write s count from_user).stack.size
      ≤ (int_stack_write s count from_user).stack.max_size := by
  unfold int_stack_write
  split
  · exact h
  · cases from_user with
    | none => exact h
    | some v =>
      simp only
      split
      · exact h
      · simp only; omega

theorem ioctl_keeps_bound (s : int_stack) (cmd : Nat) (arg : Option Nat)
    (alloc : Option (Nat → Int)) (h : s.size ≤ s.max_size) :
    (int_stack_ioctl s cmd arg alloc).stack.size
      ≤ (int_stack_ioctl s cmd arg alloc).stack.max_size := by
  unfold int_stack_ioctl
  split
  · exact h
  · split
    · cases arg with
      | none => exact h
      | some k =>
        simp only
        split
        · exact h
        · cases alloc with
          | none =>
            simp only [krealloc]
            split <;> first | omega | (dsimp only; omega)
          | some fill =>
            simp only [krealloc]
            split <;> first | omega | (dsimp only; omega)
    · exact h

/-- C7: the bound `0 ≤ size ≤ max_size` holds for every stack that
`init_stack_data` creates (which has size 0 and capacity 10), and every
read, write and control request, with any arguments and any outcome of the
kernel services it calls, takes a stack satisfying the bound to one that
satisfies it. -/
theorem size_in_bounds_invariant :
    (∀ record_ok buffer s, init_stack_data record_ok buffer = .ok s →
        size_in_bounds s ∧ s.size = 0 ∧ s.max_size = 10)
      ∧ (∀ s q, size_in_bounds s → size_in_bounds (serve s q).2) := by
  constructor
  · intro record_ok buffer s h
    unfold init_stack_data at h
    cases record_ok with
    | false => simp at h
    | true =>
      cases buffer with
      | none => simp at h
      | some junk =>
        simp at h
        subst h
        simp [size_in_bounds, DEFAULT_MAX_STACK_SIZE]
  · intro s q h
    refine ⟨Nat.zero_le _, ?_⟩
    cases q with
    | read count copy_ok => exact read_keeps_bound s count copy_ok h.2
    | write count from_user => exact write_keeps_bound s count from_user h.2
    | ioctl cmd arg alloc => exact ioctl_keeps_bound s cmd arg alloc h.2

theorem size_in_bounds_invariant_witness :
    size_in_bounds
      (serve { data := List.replicate 10 0, size := 0, max_size := 10 }
        (.write 4 (some 5))).2 :=
  size_in_bounds_invariant.2 _ _
    (size_in_bounds_invariant.1 true (some fun _ => 0)
      { data := List.replicate 10 0, size := 0, max_size := 10 } rfl).1

/-! ## Last in, first out -/

theorem serve_all_append (s : int_stack) (qs rs : List Request) :
    serve_all s (qs ++ rs)
      = ((serve_all s qs).1 ++ (serve_all (serve_all s qs).2 rs).1,
         (serve_all (serve_all s qs).2 rs).2) := by
  induction qs generalizing s with
  | nil => simp [serve_all]
  | cons q qs ih => simp [serve_all, ih]

/-- Pushing the values of `ws` onto a stack whose live cells are `pre` and
whose free cells are `rest`: every write returns 4 and the values land right
after `pre`, in the order written. -/
theorem push_many (ws : List (Nat × Int)) :
    ∀ (pre rest : List Int) (c : Nat), ws.length ≤ rest.length →
      pre.length + ws.length ≤ c → (∀ w ∈ ws, 4 ≤ w.1) →
      serve_all { data := pre ++ rest, size := pre.length, max_size := c }
          (ws.map fun w => Request.write w.1 (some w.2))
        = (ws.map (fun _ => ({ ret := 4, to_user := none } : Response)),
           { data := pre ++ ws.map Prod.snd ++ rest.drop ws.length,
             size := pre.length + ws.length, max_size := c }) := by
  induction ws with
  | nil => intro pre rest c _ _ _; simp [serve_all]
  | cons w ws ih =>
    intro pre rest c hrest hcap hcount
    cases rest with
    | nil => simp at hrest
    | cons x rest =>
      have h4 : ¬ w.1 < sizeof_int := by
        have := hcount w (List.mem_cons_self _ _)
        unfold sizeof_int; omega
      have hlt : ¬ pre.length ≥ c := by
        simp only [List.length_cons] at hcap; omega
      have hset : (pre ++ x :: rest).set pre.length w.2 = (pre ++ [w.2]) ++ rest := by
        rw [List.set_append_right _ _ (Nat.le_refl _)]
        simp
      have hstep : serve { data := pre ++ x :: rest, size := pre.length, max_size := c }
            (Request.write w.1 (some w.2))
          = ({ ret := 4, to_user := none },
             { data := (pre ++ [w.2]) ++ rest, size := (pre ++ [w.2]).length, max_size := c }) := by
        simp only [serve, int_stack_write, h4, hlt, if_false, hset]
        simp [sizeof_int]
      have hih := ih (pre ++ [w.2]) rest c
        (by simp only [List.length_cons] at hrest; omega)
        (by simp only [List.length_cons, List.length_append, List.length_nil] at hcap ⊢; omega)
        (fun v hv => hcount v (List.mem_cons_of_mem _ hv))
      simp only [List.map_cons, serve_all, hstep, hih]
      simp [Nat.add_assoc, Nat.add_comm 1]

/-- Popping as many values as `mid` holds from a stack whose live cells are
`pre ++ mid`: the reads return 4 each and deliver `mid` backwards, leaving
`pre` live and the buffer untouched. -/
theorem pop_many (cs : List Nat) :
    ∀ (pre mid post : List Int) (c : Nat), cs.length = mid.length → (∀ n ∈ cs, 4 ≤ n) →
      serve_all { data := pre ++ mid ++ post, size := pre.length + mid.length, max_size := c }
          (cs.map fun n => Request.read n true)
        = (mid.reverse.map (fun v => ({ ret := 4, to_user := some v } : Response)),
           { data := pre ++ mid ++ post, size := pre.length, max_size := c }) := by
  induction cs with
  | nil =>
    intro pre mid post c hlen _
    have hmid : mid = [] := List.length_eq_zero.mp (by simpa using hlen.symm)
    subst hmid
    simp [serve_all]
  | cons n cs ih =>
    intro pre mid post c hlen hcount
    rcases List.eq_nil_or_concat mid with hnil | ⟨init, x, hmid⟩
    · subst hnil; simp at hlen
    · rw [List.concat_eq_append] at hmid
      subst hmid
      have h4 : ¬ n < sizeof_int := by
        have := hcount n (List.mem_cons_self _ _)
        unfold sizeof_int; omega
      have hne : ¬ pre.length + (init ++ [x]).length = 0 := by simp
      have hidx : pre.length + (init ++ [x]).length - 1 = (pre ++ init).length := by
        simp only [List.length_append, List.length_cons, List.length_nil]; omega
      have hdata : pre ++ (init ++ [x]) ++ post = (pre ++ init) ++ x :: post := by simp
      have hval : (pre ++ (init ++ [x]) ++ post).getD (pre ++ init).length 0 = x := by
        rw [hdata, List.getD_append_right _ _ _ _ (Nat.le_refl _)]
        simp
      have hstep : serve
            { data := pre ++ (init ++ [x]) ++ post,
              size := pre.length + (init ++ [x]).length, max_size := c } (Request.read n true)
          = ({ ret := 4, to_user := some x },
             { data := pre ++ init ++ (x :: post), size := pre.length + init.length,
               max_size := c }) := by
        simp only [serve, int_stack_read, h4, hne, if_false, hidx, hval]
        simp [sizeof_int]
      have hih := ih pre init (x :: post) c
        (by simp only [List.length_cons, List.length_append, List.length_nil] at hlen; omega)
        (fun v hv => hcount v (List.mem_cons_of_mem _ hv))
      simp only [List.map_cons, serve_all, hstep, hih]
      simp

/-- C1: on a stack of size 0 and capacity `c` whose buffer holds `c` cells,
`n ≤ c` writes of at least four bytes each, pushing `v1..vn` in order, all
return 4; the `n` reads of at least four bytes that follow, with delivery
succeeding, each return 4 and deliver `vn, ..., v1` in that order, and the
size is 0 afterwards. -/
theorem lifo_order (s : int_stack) (ws : List (Nat × Int)) (cs : List Nat)
    (hsize : s.size = 0) (hbuf : s.max_size ≤ s.data.length) (hn : ws.length ≤ s.max_size)
    (hw : ∀ w ∈ ws, 4 ≤ w.1) (hlen : cs.length = ws.length) (hc : ∀ n ∈ cs, 4 ≤ n) :
    (serve_all s (ws.map fun w => Request.write w.1 (some w.2))).1
        = ws.map (fun _ => ({ ret := 4, to_user := none } : Response))
      ∧ (serve_all (serve_all s (ws.map fun w => Request.write w.1 (some w.2))).2
            (cs.map fun n => Request.read n true)).1
        = (ws.map Prod.snd).reverse.map (fun v => ({ ret := 4, to_user := some v } : Response))
      ∧ (serve_all (serve_all s (ws.map fun w => Request.write w.1 (some w.2))).2
            (cs.map fun n => Request.read n true)).2.size = 0 := by
  obtain ⟨data, size, max_size⟩ := s
  simp only at hsize hbuf hn
  subst hsize
  have hpush := push_many ws [] data max_size (by omega) (by simpa using hn) hw
  simp only [List.nil_append, List.length_nil, Nat.zero_add] at hpush
  rw [hpush]
  have hpop := pop_many cs [] (ws.map Prod.snd) (data.drop ws.length) max_size
    (by simpa using hlen) hc
  simp only [List.nil_append, List.length_nil, Nat.zero_add, List.length_map] at hpop
  refine ⟨rfl, ?_, ?_⟩
  · simp only; rw [hpop]
  · simp only; rw [hpop]

theorem lifo_order_witness :
    (serve_all { data := [0, 0, 0], size := 0, max_size := 3 }
        ([(4, 11), (4, 22), (8, 33)].map fun w => Request.write w.1 (some w.2))).1
        = [(4, 11), (4, 22), (8, 33)].map (fun _ => ({ ret := 4, to_user := none } : Response))
      ∧ (serve_all (serve_all { data := [0, 0, 0], size := 0, max_size := 3 }
            ([(4, 11), (4, 22), (8, 33)].map fun w => Request.write w.1 (some w.2))).2
            ([4, 4, 4].map fun n => Request.read n true)).1
        = [{ ret := 4, to_user := some 33 }, { ret := 4, to_user := some 22 },
           { ret := 4, to_user := some 11 }]
      ∧ (serve_all (serve_all { data := [0, 0, 0], size := 0, max_size := 3 }
            ([(4, 11), (4, 22), (8, 33)].map fun w => Request.write w.1 (some w.2))).2
            ([4, 4, 4].map fun n => Request.read n true)).2.size = 0 :=
  lifo_order { data := [0, 0, 0], size := 0, max_size := 3 } [(4, 11), (4, 22), (8, 33)]
    [4, 4, 4] rfl (by decide) (by decide) (by decide) rfl (by decide)

/-! ## The buffer and the capacity -/

/-- The buffer of the stack made by `init_stack_data` has `max_size` cells,
and every request keeps it so; with the size bound this puts the live cells
inside the buffer. -/
theorem buffer_matches_capacity :
    (∀ record_ok buffer s, init_stack_data record_ok buffer = .ok s →
        s.data.length = s.max_size)
      ∧ (∀ s q, s.data.length = s.max_size →
          (serve s q).2.data.length = (serve s q).2.max_size) := by
  constructor
  · intro record_ok buffer s h
    unfold init_stack_data at h
    cases record_ok with
    | false => simp at h
    | true =>
      cases buffer with
      | none => simp at h
      | some junk =>
        simp at h
        subst h
        simp
  · intro s q h
    cases q with
    | read count copy_ok =>
      simp only [serve, int_stack_read]
      split
      · exact h
      · split
        · exact h
        · cases copy_ok <;> exact h
    | write count from_user =>
      simp only [serve, int_stack_write]
      split
      · exact h
      · cases from_user with
        | none => exact h
        | some v =>
          dsimp only
          split
          · exact h
          · simpa using h
    | ioctl cmd arg alloc =>
      simp only [serve, int_stack_ioctl]
      split
      · exact h
      · split
        · cases arg with
          | none => exact h
          | some k =>
            dsimp only
            split
            · exact h
            · cases alloc with
              | none =>
                simp only [krealloc]
                split <;> exact h
              | some fill =>
                simp only [krealloc]
                split <;>
                  · simp only [List.length_append, List.length_take, List.length_map,
                      List.length_range]
                    omega
        · exact h

/-! ## The device node -/

theorem replay_append (node : Bool) (a b : List KCall) :
    replay node (a ++ b) = (replay node a).bind fun n => replay n b := by
  induction a generalizing node with
  | nil => simp [replay]
  | cons c a ih =>
    simp only [List.cons_append, replay]
    cases node_after node c with
    | none => simp
    | some n => simpa using ih n

theorem handle_replay (m : module_state) (e : Event) :
    replay m.device_created (handle m e).2 = some (handle m e).1.device_created := by
  obtain ⟨created, key⟩ := m
  cases e with
  | attach udev create_err =>
    cases created <;> cases create_err <;>
      simp [handle, usb_key_probe, create_device, replay, node_after]
  | detach =>
    cases created <;>
      simp [handle, usb_key_disconnect, remove_device, replay, node_after]

theorem handle_all_replay (es : List Event) :
    ∀ m : module_state,
      replay m.device_created (handle_all m es).2 = some (handle_all m es).1.device_created := by
  induction es with
  | nil => intro m; simp [handle_all, replay]
  | cons e es ih =>
    intro m
    simp only [handle_all]
    rw [replay_append, handle_replay m e]
    simpa using ih (handle m e).1

/-- C9: for every sequence of attach and detach events handled from the
state after module initialisation, replaying the node calls the driver made
never meets a `device_create` while the node exists nor a `device_destroy`
while it does not, and the node exists at the end exactly when
`device_created` is set; in the state reached, an attach event with
`device_created` set makes no node call and changes nothing but the stored
`usb_key_device` pointer, and a detach event with `device_created` clear
makes no node call and changes nothing but that pointer, which it clears. -/
theorem node_never_doubled (es : List Event) :
    replay false (handle_all module_initialised es).2
        = some (handle_all module_initialised es).1.device_created
      ∧ (∀ udev create_err, (handle_all module_initialised es).1.device_created = true →
          handle (handle_all module_initialised es).1 (.attach udev create_err)
            = ({ (handle_all module_initialised es).1 with usb_key_device := some udev }, []))
      ∧ ((handle_all module_initialised es).1.device_created = false →
          handle (handle_all module_initialised es).1 .detach
            = ({ (handle_all module_initialised es).1 with usb_key_device := none }, [])) := by
  refine ⟨?_, ?_, ?_⟩
  · exact handle_all_replay es module_initialised
  · intro udev create_err h
    simp [handle, usb_key_probe, create_device, h]
  · intro h
    simp [handle, usb_key_disconnect, remove_device, h]

theorem node_never_doubled_witness :
    handle (handle_all module_initialised [.attach 1 none]).1 (.attach 2 none)
        = ({ device_created := true, usb_key_device := some 2 }, [])
      ∧ handle (handle_all module_initialised []).1 .detach
        = ({ device_created := false, usb_key_device := none }, [])
      ∧ replay false (handle_all module_initialised [.attach 1 none, .attach 2 none, .detach,
          .detach]).2 = some false :=
  ⟨(node_never_doubled [.attach 1 none]).2.1 2 none (by decide),
   (node_never_doubled []).2.2 (by decide),
   (node_never_doubled [.attach 1 none, .attach 2 none, .detach, .detach]).1⟩

theorem handle_created_imp_key (m : module_state) (e : Event)
    (h : m.device_created = true → m.usb_key_device.isSome = true) :
    (handle m e).1.device_created = true → (handle m e).1.usb_key_device.isSome = true := by
  obtain ⟨created, key⟩ := m
  cases e with
  | attach udev create_err =>
    cases created <;> cases create_err <;>
      simp [handle, usb_key_probe, create_device]
  | detach =>
    cases created <;> simp [handle, usb_key_disconnect, remove_device]

theorem handle_created_iff_key (m : module_state) (e : Event)
    (hok : creates_succeed [e] = true)
    (h : m.device_created = true ↔ m.usb_key_device.isSome = true) :
    (handle m e).1.device_created = true ↔ (handle m e).1.usb_key_device.isSome = true := by
  obtain ⟨created, key⟩ := m
  cases e with
  | attach udev create_err =>
    cases create_err with
    | some err => simp [creates_succeed] at hok
    | none => cases created <;> simp [handle, usb_key_probe, create_device]
  | detach =>
    cases created <;> simp [handle, usb_key_disconnect, remove_device]

theorem handle_all_created_imp_key (es : List Event) :
    ∀ m : module_state, (m.device_created = true → m.usb_key_device.isSome = true) →
      (handle_all m es).1.device_created = true →
        (handle_all m es).1.usb_key_device.isSome = true := by
  induction es with
  | nil => intro m h; simpa [handle_all] using h
  | cons e es ih =>
    intro m h
    simp only [handle_all]
    exact ih (handle m e).1 (handle_created_imp_key m e h)

theorem handle_all_created_iff_key (es : List Event) :
    ∀ m : module_state, creates_succeed es = true →
      (m.device_created = true ↔ m.usb_key_device.isSome = true) →
      ((handle_all m es).1.device_created = true ↔
        (handle_all m es).1.usb_key_device.isSome = true) := by
  induction es with
  | nil => intro m _ h; simpa [handle_all] using h
  | cons e es ih =>
    intro m hok h
    have h1 : creates_succeed [e] = true := by
      simp only [creates_succeed, List.all_cons, Bool.and_eq_true] at hok
      simpa [creates_succeed] using hok.1
    have h2 : creates_succeed es = true := by
      simp only [creates_succeed, List.all_cons, Bool.and_eq_true] at hok
      simpa [creates_succeed] using hok.2
    simp only [handle_all]
    exact ih (handle m e).1 h2 (handle_created_iff_key m e h1 h)

/-- C10, as stated, fails: after one attach event whose `device_create`
returns an error pointer, `usb_key_device` is non-NULL while `device_created`
is still false. -/
theorem node_absent_with_key_attached :
    ¬ ((handle_all module_initialised [.attach 1 (some (-12))]).1.device_created = true ↔
        (handle_all module_initialised [.attach 1 (some (-12))]).1.usb_key_device.isSome
          = true) := by
  decide

/-- C10, amended: in every state reached from module initialisation by
attach and detach events, `device_created` set implies `usb_key_device`
non-NULL; and when every `device_create` the events led to succeeded,
`device_created` is set exactly when `usb_key_device` is non-NULL. -/
theorem node_tracks_presence (es : List Event) :
    ((handle_all module_initialised es).1.device_created = true →
        (handle_all module_initialised es).1.usb_key_device.isSome = true)
      ∧ (creates_succeed es = true →
          ((handle_all module_initialised es).1.device_created = true ↔
            (handle_all module_initialised es).1.usb_key_device.isSome = true)) := by
  constructor
  · exact handle_all_created_imp_key es module_initialised (by decide)
  · intro hok
    exact handle_all_created_iff_key es module_initialised hok (by decide)

theorem node_tracks_presence_witness :
    ((handle_all module_initialised
          [.attach 1 none, .attach 2 none, .detach, .attach 3 none]).1.device_created = true ↔
        (handle_all module_initialised
          [.attach 1 none, .attach 2 none, .detach, .attach 3 none]).1.usb_key_device.isSome
            = true)
      ∧ (handle_all module_initialised [.attach 1 none]).1.usb_key_device.isSome = true :=
  ⟨(node_tracks_presence [.attach 1 none, .attach 2 none, .detach, .attach 3 none]).2
      (by decide),
   (node_tracks_presence [.attach 1 none]).1 (by decide)⟩

/-! ## Opening a session -/

/-- C11, as stated, fails: in the state after module initialisation no key
is attached, and `int_stack_open` still returns 0 rather than an error. -/
theorem open_succeeds_without_key :
    ¬ (module_initialised.usb_key_device = none → int_stack_open module_initialised ≠ 0) := by
  decide

/-- C11, amended: `int_stack_open` returns 0 in every module state, with or
without a key attached; what the absence of the key changes is the node: in
every state reached from module initialisation by attach and detach events
in which `usb_key_device` is NULL, `device_created` is false. -/
theorem open_always_succeeds (m : module_state) (es : List Event) :
    int_stack_open m = 0
      ∧ ((handle_all module_initialised es).1.usb_key_device = none →
          (handle_all module_initialised es).1.device_created = false) := by
  refine ⟨rfl, ?_⟩
  intro hkey
  have h := handle_all_created_imp_key es module_initialised (by decide)
  cases hc : (handle_all module_initialised es).1.device_created with
  | false => rfl
  | true =>
    have := h hc
    rw [hkey] at this
    simp at this

theorem open_always_succeeds_witness :
    int_stack_open { device_created := false, usb_key_device := none } = 0
      ∧ (handle_all module_initialised [.attach 1 none, .detach]).1.device_created = false :=
  ⟨(open_always_succeeds { device_created := false, usb_key_device := none } []).1,
   (open_always_succeeds module_initialised [.attach 1 none, .detach]).2 (by decide)⟩

/-! ## Requests that are too short -/

/-- C12: for every stack and every size below 4, a read of that size returns
`-EINVAL` with nothing delivered, whatever `copy_to_user` would have done,
and a write of that size returns `-EINVAL`, whatever the caller's buffer
holds or whether it can be read at all; both leave the stack record (size,
capacity and every cell) as it was, be the stack empty, full or neither. -/
theorem short_request_invalid (s : int_stack) (count : Nat) (copy_ok : Bool)
    (from_user : Option Int) (hcount : count < 4) :
    int_stack_read s count copy_ok = { ret := -EINVAL, to_user := none, stack := s }
      ∧ int_stack_write s count from_user = { ret := -EINVAL, stack := s } := by
  have h : count < sizeof_int := hcount
  constructor
  · simp [int_stack_read, h]
  · simp [int_stack_write, h]

theorem short_request_invalid_witness :
    int_stack_read { data := [7, 8], size := 2, max_size := 2 } 3 true
        = { ret := -22, to_user := none, stack := { data := [7, 8], size := 2, max_size := 2 } }
      ∧ int_stack_write { data := [7, 8], size := 2, max_size := 2 } 3 (some 9)
        = { ret := -22, stack := { data := [7, 8], size := 2, max_size := 2 } } :=
  short_request_invalid { data := [7, 8], size := 2, max_size := 2 } 3 true (some 9) (by decide)

/-! ## Serial runs of reads and writes -/

theorem serve_net_size (s : int_stack) (q : Request) (hq : is_data_request q = true) :
    (serve s q).2.size + (if popped (q, (serve s q).1) then 1 else 0)
      = s.size + (if pushed (q, (serve s q).1) then 1 else 0) := by
  cases q with
  | ioctl cmd arg alloc => simp [is_data_request] at hq
  | read count copy_ok =>
    simp only [serve, int_stack_read, popped, pushed]
    split
    · simp [EINVAL]
    · split
      · simp
      · cases copy_ok
        · simp [EFAULT]; omega
        · simp [sizeof_int]; omega
  | write count from_user =>
    simp only [serve, int_stack_write, popped, pushed]
    split
    · simp [EINVAL]
    · cases from_user with
      | none => simp [EFAULT]
      | some v =>
        dsimp only
        split
        · simp [ERANGE]
        · simp [sizeof_int]

/-- When reads and writes are served one after the other, the final size is
the initial size plus the number of writes answered with 4 minus the number
of reads answered with 4. -/
theorem serial_net_size (qs : List Request) :
    ∀ s : int_stack, (∀ q ∈ qs, is_data_request q = true) →
      (serve_all s qs).2.size + (qs.zip (serve_all s qs).1).countP popped
        = s.size + (qs.zip (serve_all s qs).1).countP pushed := by
  induction qs with
  | nil => intro s _; simp [serve_all]
  | cons q qs ih =>
    intro s hq
    have h1 := serve_net_size s q (hq q (List.mem_cons_self _ _))
    have h2 := ih (serve s q).2 (fun r hr => hq r (List.mem_cons_of_mem _ hr))
    simp only [serve_all, List.zip_cons_cons, List.countP_cons]
    omega

end IntStack
